import Mathlib

/-!
Verification of the `lightningd-download` launch harness (`src/lib.rs`).

The crate launches an external `lightningd` daemon process, waits until the
daemon's control socket answers a `getinfo` status query, and tears the
process down when the owning handle is dropped.  This file gives a shallow
embedding of the pure control-flow core of `LightningD::with_conf`,
`validate_args`, the `DataDir` work-directory resolution, and the `Drop`
implementation, and proves the behavioural properties stated about them.

Modelling conventions:
* Filesystem and process effects are oracles: temporary-directory creation is
  a caller-supplied fresh-name function, directory creation is modelled as
  succeeding (I/O errors are orthogonal to every property proved here), and
  the per-iteration observations of the readiness-polling loop (`try_wait`
  result, `getinfo` probe result) are supplied as an observation stream.
* `ExitStatus` is the raw OS exit status carried by `std::process::ExitStatus`.
* `attempts` is a `u8` in the source; it is modelled as `Nat`.  The only
  arithmetic on it is `attempts - 1` guarded by `attempts > 0`, so no wrap
  can occur and the embedding is exact on the reachable range `0..=255`.
-/

namespace Lnd

/-- Decidable equality for `Except`, used to settle concrete runs of the
embedded operations by `decide`. -/
instance instDecEqExcept {ε α : Type} [DecidableEq ε] [DecidableEq α] :
    DecidableEq (Except ε α) := fun x y =>
  match x, y with
  | Except.ok a, Except.ok b =>
    if h : a = b then Decidable.isTrue (by rw [h])
    else Decidable.isFalse (fun hc => h (Except.ok.inj hc))
  | Except.error a, Except.error b =>
    if h : a = b then Decidable.isTrue (by rw [h])
    else Decidable.isFalse (fun hc => h (Except.error.inj hc))
  | Except.ok _, Except.error _ =>
    Decidable.isFalse (fun hc => Except.noConfusion hc)
  | Except.error _, Except.ok _ =>
    Decidable.isFalse (fun hc => Except.noConfusion hc)

/-- Raw OS exit status, as carried by `std::process::ExitStatus`. -/
abbrev ExitStatus := Int

/-- The error enum of the crate (`enum Error` in `src/lib.rs`). -/
inductive Error where
  | Io
  | Rpc
  | NoFeature
  | NoEnvVar
  | NoLightningdExecutableFound
  | EarlyExit (status : ExitStatus)
  | BothDirsSpecified
  | RpcUserAndPasswordUsed
  deriving DecidableEq, Repr

/-- `const INVALID_ARGS: [&str; 2] = ["-rpcuser", "-rpcpassword"];` -/
def INVALID_ARGS : List String := ["-rpcuser", "-rpcpassword"]

/-- Rust `str::starts_with`, on the character sequences of the two strings
(kernel-computable, unlike `String.startsWith`). -/
def strStartsWith (s x : String) : Bool := x.toList.isPrefixOf s.toList

/-- One step of the `try_for_each` closure in `validate_args`: error out on the
first argument that starts with a deny-listed flag. -/
def validate_args_check : List String → Except Error Unit
  | [] => Except.ok ()
  | arg :: rest =>
    if INVALID_ARGS.any (fun x => strStartsWith arg x) then
      Except.error Error.RpcUserAndPasswordUsed
    else
      validate_args_check rest

/-- `pub fn validate_args(args: Vec<&str>) -> anyhow::Result<Vec<&str>>`:
iterate over the arguments, failing with `Error::RpcUserAndPasswordUsed` on
the first one starting with a deny-listed prefix, and return the input
unchanged on success. -/
def validate_args (args : List String) : Except Error (List String) :=
  match validate_args_check args with
  | Except.error e => Except.error e
  | Except.ok () => Except.ok args

/-- `enum DataDir`: the work directory is either persistent (caller-owned
path, survives) or temporary (a `TempDir`, deleted on drop).  Paths are
modelled as strings. -/
inductive DataDir where
  | Persistent (path : String)
  | Temporary (path : String)
  deriving DecidableEq, Repr

/-- `DataDir::path`. -/
def DataDir.path : DataDir → String
  | DataDir.Persistent p => p
  | DataDir.Temporary p => p

/-- The OS default temporary root used by `TempDir::new()`
(`std::env::temp_dir()`). -/
def OS_DEFAULT_TMP : String := "/tmp"

/-- Work-directory materialization: the embedding of `src/lib.rs:187-199`.

```rust
let tmpdir = conf.tmpdir.clone()
    .or_else(|| env::var("TEMPDIR_ROOT").map(PathBuf::from).ok());
let work_dir = match (&tmpdir, &conf.staticdir) {
    (Some(_), Some(_)) => return Err(Error::BothDirsSpecified.into()),
    (Some(tmpdir), None) => DataDir::Temporary(TempDir::new_in(tmpdir)?),
    (None, Some(workdir)) => { fs::create_dir_all(workdir)?;
                               DataDir::Persistent(workdir.to_owned()) }
    (None, None) => DataDir::Temporary(TempDir::new()?),
};
```

`env_TEMPDIR_ROOT` is the value of the `TEMPDIR_ROOT` environment variable.
`freshName` is the fresh name a `TempDir` creation yields; `fs::create_dir_all`
and `TempDir` creation are modelled as succeeding (their I/O errors are
orthogonal to the properties proved about this function). -/
def materialize (conf_tmpdir conf_staticdir : Option String)
    (env_TEMPDIR_ROOT : Option String) (freshName : String) :
    Except Error DataDir :=
  let tmpdir := conf_tmpdir.orElse (fun _ => env_TEMPDIR_ROOT)
  match tmpdir, conf_staticdir with
  | some _, some _ => Except.error Error.BothDirsSpecified
  | some tmp, none => Except.ok (DataDir.Temporary (tmp ++ "/" ++ freshName))
  | none, some workdir => Except.ok (DataDir.Persistent workdir)
  | none, none =>
      Except.ok (DataDir.Temporary (OS_DEFAULT_TMP ++ "/" ++ freshName))

/-- What one iteration of the readiness-polling loop observes about the
world: either `try_wait` reports the process exited with a status, or the
process is alive and the `getinfo` probe made this iteration either succeeds
or fails. -/
inductive Obs where
  | exited (status : ExitStatus)
  | alive (getinfoOk : Bool)
  deriving DecidableEq, Repr

/-- The externally visible actions the polling loop performs, in order. -/
inductive Event where
  | checkExit
  | sleep100ms
  | probe (ok : Bool)
  deriving DecidableEq, Repr

/-- Outcome of the polling loop on a finite observation stream. -/
inductive PollOutcome where
  | ready
  | earlyExit (status : ExitStatus)
  | noObs
  deriving DecidableEq, Repr

/-- The readiness-polling loop of `with_conf` (`src/lib.rs:256-284`), as a
trace semantics over an observation stream.  Each iteration, in source
order: `process.try_wait()` (the `checkExit` event); if the process exited
the loop ends with that status; otherwise `thread::sleep(100ms)` (the
`sleep100ms` event), then the probe — build the socket path, construct
`LightningRPC`, call `getinfo()` (the `probe` event); on probe success the
loop breaks with the connected client, on failure it loops.  An exhausted
observation stream (`noObs`) models the loop still running: the readiness
side is unbounded in the source. -/
def pollTrace : List Obs → List Event × PollOutcome
  | [] => ([], PollOutcome.noObs)
  | Obs.exited s :: _ => ([Event.checkExit], PollOutcome.earlyExit s)
  | Obs.alive ok :: rest =>
    if ok then
      ([Event.checkExit, Event.sleep100ms, Event.probe true],
       PollOutcome.ready)
    else
      let r := pollTrace rest
      (Event.checkExit :: Event.sleep100ms :: Event.probe false :: r.1, r.2)

/-- `struct Conf` (`src/lib.rs:125-162`).  `attempts` is a `u8` in the
source, modelled as `Nat` (see the header comment). -/
structure Conf where
  args : List String
  view_stdout : Bool
  network : String
  tmpdir : Option String
  staticdir : Option String
  attempts : Nat
  deriving DecidableEq, Repr

/-- `impl Default for Conf` (`src/lib.rs:164-175`). -/
def Conf.default : Conf :=
  { args := ["--regtest"]
    view_stdout := false
    network := "regtest"
    tmpdir := none
    staticdir := none
    attempts := 3 }

/-- The handle returned by a successful launch (`struct LightningD`).  The
child process and connected RPC client are live resources; the embedding
keeps the work directory, the datum the proved properties are about. -/
structure LightningD where
  work_dir : DataDir
  deriving DecidableEq, Repr

/-- Result of a launch over a finite observation stream: a handle, an error,
or exhaustion of the supplied observations (the loop still polling). -/
inductive LaunchOutcome where
  | ok (node : LightningD)
  | err (e : Error)
  | noObs
  deriving DecidableEq, Repr

/-- The recursive body of `LightningD::with_conf` (`src/lib.rs:186-291`),
with the retry budget as the recursion argument.

In the source, the early-exit retry clones `conf`, decrements only its
`attempts` field, and calls `Self::with_conf(exe, &conf)` again; every other
field of the clone is identical, so the budget is the single datum that
changes across the recursion and is passed here as the explicit argument
`attempts` (`with_conf` below seeds it with `conf.attempts`).  `idx` numbers
the launch attempts so that the fresh-directory oracle `fresh` and the
poll-observation oracle `runs` can distinguish them; the top-level call uses
`idx = 0` and each retry moves to `idx + 1` (a fresh `TempDir`, a fresh run
of the process).  Spawning itself (`Command::new(..).spawn()`) is modelled
as succeeding: a spawn failure is immediately terminal in the source and is
orthogonal to every property proved here.  The second component of the
result counts the spawn attempts performed. -/
def launch_go (conf : Conf) (envTmp : Option String) (fresh : Nat → String)
    (runs : Nat → List Obs) : Nat → Nat → LaunchOutcome × Nat
  | attempts, idx =>
    match materialize conf.tmpdir conf.staticdir envTmp (fresh idx) with
    | Except.error e => (LaunchOutcome.err e, 0)
    | Except.ok work_dir =>
      match validate_args conf.args with
      | Except.error e => (LaunchOutcome.err e, 0)
      | Except.ok _conf_args =>
        match (pollTrace (runs idx)).2 with
        | PollOutcome.noObs => (LaunchOutcome.noObs, 1)
        | PollOutcome.ready => (LaunchOutcome.ok { work_dir := work_dir }, 1)
        | PollOutcome.earlyExit status =>
          match attempts with
          | 0 => (LaunchOutcome.err (Error.EarlyExit status), 1)
          | a + 1 =>
            let r := launch_go conf envTmp fresh runs a (idx + 1)
            (r.1, r.2 + 1)

/-- `LightningD::with_conf(exe, conf)`: run the launch state machine with
the configured retry budget, starting at attempt 0. -/
def with_conf (conf : Conf) (envTmp : Option String) (fresh : Nat → String)
    (runs : Nat → List Obs) : LaunchOutcome × Nat :=
  launch_go conf envTmp fresh runs conf.attempts 0

/-- State-passing embedding of `fn with_conf<S>(exe: S, conf: &Conf)`: the
`Conf` component of the result is the caller's configuration as observable
after the call returns (the function takes `conf` by shared reference; the
retry path operates on `conf.clone()`).  The first component agrees with
`with_conf`/`launch_go`; this variant exists to state the frame property
that the caller's configuration is never mutated. -/
def with_conf_st (conf : Conf) (envTmp : Option String) (fresh : Nat → String)
    (runs : Nat → List Obs) (idx : Nat) : (LaunchOutcome × Nat) × Conf :=
  match materialize conf.tmpdir conf.staticdir envTmp (fresh idx) with
  | Except.error e => ((LaunchOutcome.err e, 0), conf)
  | Except.ok work_dir =>
    match validate_args conf.args with
    | Except.error e => ((LaunchOutcome.err e, 0), conf)
    | Except.ok _conf_args =>
      match (pollTrace (runs idx)).2 with
      | PollOutcome.noObs => ((LaunchOutcome.noObs, 1), conf)
      | PollOutcome.ready => ((LaunchOutcome.ok { work_dir := work_dir }, 1), conf)
      | PollOutcome.earlyExit status =>
        if h : conf.attempts > 0 then
          let conf2 := { conf with attempts := conf.attempts - 1 }
          let r := with_conf_st conf2 envTmp fresh runs (idx + 1)
          ((r.1.1, r.1.2 + 1), conf)
        else ((LaunchOutcome.err (Error.EarlyExit status), 1), conf)
termination_by conf.attempts
decreasing_by exact Nat.sub_lt h Nat.one_pos

/-- The two shutdown actions of `impl Drop for LightningD`. -/
inductive ShutdownAction where
  | gracefulStop
  | kill
  deriving DecidableEq, Repr

/-- The action sequence performed by `Drop::drop` (`src/lib.rs:317-324`):

```rust
fn drop(&mut self) {
    if let DataDir::Persistent(_) = self.work_dir {
        let _ = self.stop();
    }
    let _ = self.process.kill();
}
```

`stop_result` is the outcome the graceful `self.stop()` call would produce;
both `let _ =` bindings discard their results, so the action sequence does
not depend on it. -/
def drop_actions (work_dir : DataDir)
    (_stop_result : Except Error ExitStatus) : List ShutdownAction :=
  (match work_dir with
   | DataDir.Persistent _ => [ShutdownAction.gracefulStop]
   | DataDir.Temporary _ => []) ++ [ShutdownAction.kill]

/-- `Stdio` configuration values used by `Command::stdout`/`stderr`. -/
inductive Stdio where
  | inherit
  | null
  | piped
  deriving DecidableEq, Repr

/-- The standard-stream configuration of the spawned `Command`
(`src/lib.rs:228-251`): `stdout` is set to `Stdio::inherit()` when
`conf.view_stdout` and `Stdio::null()` otherwise, and `.stderr(..)` is never
called, so the stderr configuration stays at its `None` default. -/
structure SpawnConfig where
  stdout_cfg : Option Stdio
  stderr_cfg : Option Stdio
  deriving DecidableEq, Repr

/-- The `Command` built by `with_conf` before `spawn()`. -/
def lightningd_command (view_stdout : Bool) : SpawnConfig :=
  { stdout_cfg := some (if view_stdout then Stdio.inherit else Stdio.null)
    stderr_cfg := none }

/-- The spawned child, restricted to the datum the assertion at
`src/lib.rs:270` inspects: `process.stderr` is `Some(handle)` exactly when
the command configured `Stdio::piped()` for stderr. -/
structure Child where
  stderr_captured : Bool
  deriving DecidableEq, Repr

/-- `Command::spawn` on the stream configuration. -/
def spawn (cfg : SpawnConfig) : Child :=
  { stderr_captured := if cfg.stderr_cfg = some Stdio.piped then true else false }

/-- Predicate on polling-loop traces formalising the claim "only on probe
failure does it sleep the fixed delay": every `sleep100ms` event must be
immediately preceded by a failed probe.  `prev` is the preceding event
(`none` at the start of the trace). -/
def sleepsOnlyAfterFailedProbe : Option Event → List Event → Bool
  | _, [] => true
  | prev, e :: rest =>
    (match e with
     | Event.sleep100ms => if prev = some (Event.probe false) then true else false
     | _ => true) &&
      sleepsOnlyAfterFailedProbe (some e) rest

/-- Predicate on polling-loop traces for the amended ordering: every probe
event is immediately preceded by the fixed 100 ms sleep.  `prev` is the
preceding event (`none` at the start of the trace). -/
def probesFollowSleep : Option Event → List Event → Bool
  | _, [] => true
  | prev, e :: rest =>
    (match e with
     | Event.probe _ => if prev = some Event.sleep100ms then true else false
     | _ => true) &&
      probesFollowSleep (some e) rest

/-- UTF-8 validity checker, one byte at a time.  The state is the number of
continuation bytes still expected for the current scalar, together with the
admissible range `lo..=hi` for the next byte (the first continuation byte of
a multi-byte scalar has a lead-byte-dependent range, per the well-formed
byte-sequence table of the Unicode standard: this rejects overlong forms,
surrogates and values above `U+10FFFF`).  At `pending = 0` a new scalar
starts and `lo`/`hi` are ignored. -/
def utf8ValidSt : Nat → Nat → Nat → List Nat → Bool
  | 0, _, _, [] => true
  | 0, _, _, b :: rest =>
    if b ≤ 0x7F then utf8ValidSt 0 0 0 rest
    else if 0xC2 ≤ b ∧ b ≤ 0xDF then utf8ValidSt 1 0x80 0xBF rest
    else if b = 0xE0 then utf8ValidSt 2 0xA0 0xBF rest
    else if (0xE1 ≤ b ∧ b ≤ 0xEC) ∨ b = 0xEE ∨ b = 0xEF then
      utf8ValidSt 2 0x80 0xBF rest
    else if b = 0xED then utf8ValidSt 2 0x80 0x9F rest
    else if b = 0xF0 then utf8ValidSt 3 0x90 0xBF rest
    else if 0xF1 ≤ b ∧ b ≤ 0xF3 then utf8ValidSt 3 0x80 0xBF rest
    else if b = 0xF4 then utf8ValidSt 3 0x80 0x8F rest
    else false
  | _ + 1, _, _, [] => false
  | k + 1, lo, hi, c :: rest =>
    if lo ≤ c ∧ c ≤ hi then utf8ValidSt k 0x80 0xBF rest else false

/-- UTF-8 validity of a byte sequence (bytes as `Nat`) — the validity notion
behind `Path::to_str` returning `Some`. -/
def utf8Valid (l : List Nat) : Bool := utf8ValidSt 0 0 0 l

/-- `Path::to_str` on a byte-sequence path: succeeds exactly when the bytes
are valid UTF-8 (the "string" is returned as its byte sequence). -/
def path_to_str (p : List Nat) : Option (List Nat) :=
  if utf8Valid p then some p else none

/-- The path separator byte appended by `Path::join` (ASCII `/`). -/
def sepByte : List Nat := [47]

/-- UTF-8 bytes of the literal `"lightning-rpc"` (all ASCII). -/
def lightning_rpc_bytes : List Nat :=
  [108, 105, 103, 104, 116, 110, 105, 110, 103, 45, 114, 112, 99]

/-- The control-socket path built at `src/lib.rs:271`:
`work_dir_path.join(conf.network).join("lightning-rpc")`, at the byte level
(`w` the work-directory path bytes, `net` the UTF-8 bytes of the network
name). -/
def sock_bytes (w net : List Nat) : List Nat :=
  w ++ sepByte ++ net ++ sepByte ++ lightning_rpc_bytes

example : validate_args ["--regtest"] = Except.ok ["--regtest"] := by decide
example : validate_args ["--x", "-rpcuser=joe"] =
    Except.error Error.RpcUserAndPasswordUsed := by decide
example : materialize none (some "/tmp/mynode") (some "/ram") "t0" =
    Except.error Error.BothDirsSpecified := by decide
example : materialize none (some "/tmp/mynode") none "t0" =
    Except.ok (DataDir.Persistent "/tmp/mynode") := by decide
example : pollTrace [Obs.alive false, Obs.alive true] =
    ([Event.checkExit, Event.sleep100ms, Event.probe false,
      Event.checkExit, Event.sleep100ms, Event.probe true],
     PollOutcome.ready) := by decide
example :
    with_conf { Conf.default with attempts := 2 } none (fun i => toString i)
      (fun i => if i < 1 then [Obs.exited 7] else [Obs.alive true]) =
    (LaunchOutcome.ok { work_dir := DataDir.Temporary "/tmp/1" }, 2) := by
  decide
example :
    with_conf { Conf.default with attempts := 0 } none (fun i => toString i)
      (fun _ => [Obs.exited 7]) =
    (LaunchOutcome.err (Error.EarlyExit 7), 1) := by decide
example : utf8Valid [104, 105] = true := by decide
example : utf8Valid [0xC3, 0xA9] = true := by decide
example : utf8Valid [0xC3] = false := by decide
example : utf8Valid [0xED, 0xA0, 0x80] = false := by decide
example : path_to_str (sock_bytes [47, 116] [114]) = some (sock_bytes [47, 116] [114]) := by decide

/-! ## Helper lemmas -/

/-- The only error `materialize` can return is `BothDirsSpecified` (its I/O
is modelled as succeeding). -/
theorem materialize_error (t s e : Option String) (f : String) (er : Error)
    (h : materialize t s e f = Except.error er) :
    er = Error.BothDirsSpecified := by
  cases t <;> cases s <;> cases e <;>
    simp [materialize, Option.orElse] at h <;> exact h.symm

/-- The only error `validate_args_check` can return is
`RpcUserAndPasswordUsed`. -/
theorem validate_args_check_error (args : List String) (er : Error)
    (h : validate_args_check args = Except.error er) :
    er = Error.RpcUserAndPasswordUsed := by
  induction args with
  | nil => exact absurd h (by simp [validate_args_check])
  | cons a rest ih =>
    cases hc : INVALID_ARGS.any (fun x => strStartsWith a x) with
    | true =>
      simp [validate_args_check, hc] at h
      exact h.symm
    | false =>
      simp [validate_args_check, hc] at h
      exact ih h

/-- The only error `validate_args` can return is `RpcUserAndPasswordUsed`. -/
theorem validate_args_error (args : List String) (er : Error)
    (h : validate_args args = Except.error er) :
    er = Error.RpcUserAndPasswordUsed := by
  unfold validate_args at h
  cases hc : validate_args_check args with
  | error e =>
    rw [hc] at h
    cases h
    exact validate_args_check_error args er hc
  | ok _ => rw [hc] at h; cases h

/-- `validate_args_check` succeeds exactly when no argument starts with a
deny-listed prefix. -/
theorem validate_args_check_eq (args : List String) :
    validate_args_check args =
      (if args.any (fun a => INVALID_ARGS.any (fun x => strStartsWith a x)) then
        Except.error Error.RpcUserAndPasswordUsed
      else Except.ok ()) := by
  induction args with
  | nil => rfl
  | cons a rest ih =>
    by_cases hc : INVALID_ARGS.any (fun x => strStartsWith a x) = true
    · simp [validate_args_check, hc]
    · simp only [Bool.not_eq_true] at hc
      simp [validate_args_check, hc, ih]

/-- A polling-loop trace is empty or starts with the exit check. -/
theorem pollTrace_shape (obs : List Obs) :
    (pollTrace obs).1 = [] ∨
      ∃ t, (pollTrace obs).1 = Event.checkExit :: t := by
  cases obs with
  | nil => exact Or.inl rfl
  | cons o rest =>
    cases o with
    | exited s => exact Or.inr ⟨[], rfl⟩
    | alive ok =>
      cases ok with
      | true => exact Or.inr ⟨[Event.sleep100ms, Event.probe true], rfl⟩
      | false =>
        exact Or.inr
          ⟨Event.sleep100ms :: Event.probe false :: (pollTrace rest).1, rfl⟩

/-- `probesFollowSleep` does not depend on the incoming previous event when
the trace does not start with a probe. -/
theorem probesFollowSleep_shift (p q : Option Event) (tr : List Event)
    (h : tr = [] ∨ ∃ t, tr = Event.checkExit :: t) :
    probesFollowSleep p tr = probesFollowSleep q tr := by
  rcases h with rfl | ⟨t, rfl⟩ <;> rfl

/-- A polling run that ends `ready` contains a successful probe event. -/
theorem pollTrace_ready_probe (obs : List Obs)
    (h : (pollTrace obs).2 = PollOutcome.ready) :
    Event.probe true ∈ (pollTrace obs).1 := by
  induction obs with
  | nil => exact PollOutcome.noConfusion h
  | cons o rest ih =>
    cases o with
    | exited s => exact PollOutcome.noConfusion h
    | alive ok =>
      cases ok with
      | true => simp [pollTrace]
      | false =>
        have h' : (pollTrace rest).2 = PollOutcome.ready := h
        have hm := ih h'
        show Event.probe true ∈
          Event.checkExit :: Event.sleep100ms :: Event.probe false ::
            (pollTrace rest).1
        exact List.mem_cons_of_mem _
          (List.mem_cons_of_mem _ (List.mem_cons_of_mem _ hm))

/-- `utf8ValidSt` at `pending = 0` ignores the range parameters. -/
theorem utf8ValidSt_zero (lo hi lo' hi' : Nat) (l : List Nat) :
    utf8ValidSt 0 lo hi l = utf8ValidSt 0 lo' hi' l := by
  cases l <;> rfl

/-- Appending a valid UTF-8 sequence to the residue of a valid run keeps the
run valid. -/
theorem utf8ValidSt_append (b : List Nat) (hb : utf8Valid b = true) :
    ∀ (a : List Nat) (k lo hi : Nat), utf8ValidSt k lo hi a = true →
      utf8ValidSt k lo hi (a ++ b) = true := by
  intro a
  induction a with
  | nil =>
    intro k lo hi hv
    cases k with
    | zero =>
      simp only [List.nil_append]
      rw [utf8ValidSt_zero lo hi 0 0]
      exact hb
    | succ k => simp [utf8ValidSt] at hv
  | cons c rest ih =>
    intro k lo hi hv
    cases k with
    | zero =>
      simp only [List.cons_append]
      simp only [utf8ValidSt] at hv ⊢
      split_ifs at hv ⊢ <;> exact ih _ _ _ hv
    | succ k =>
      simp only [List.cons_append]
      simp only [utf8ValidSt] at hv ⊢
      split_ifs at hv ⊢
      exact ih _ _ _ hv

/-- Concatenation of valid UTF-8 byte sequences is valid. -/
theorem utf8Valid_append (a b : List Nat) (ha : utf8Valid a = true)
    (hb : utf8Valid b = true) : utf8Valid (a ++ b) = true :=
  utf8ValidSt_append b hb a 0 0 0 ha

/-- On success `validate_args` returns exactly its input. -/
theorem validate_args_ok (args v : List String)
    (h : validate_args args = Except.ok v) : v = args := by
  unfold validate_args at h
  cases hc : validate_args_check args <;> rw [hc] at h <;> cases h
  rfl

/-- `launch_go` when work-directory materialization fails. -/
theorem launch_go_materialize_err (conf : Conf) (envTmp : Option String)
    (fresh : Nat → String) (runs : Nat → List Obs) (attempts idx : Nat)
    (e : Error)
    (hm : materialize conf.tmpdir conf.staticdir envTmp (fresh idx) =
      Except.error e) :
    launch_go conf envTmp fresh runs attempts idx =
      (LaunchOutcome.err e, 0) := by
  rw [launch_go]
  simp only [hm]

/-- `launch_go` when argument validation fails. -/
theorem launch_go_validate_err (conf : Conf) (envTmp : Option String)
    (fresh : Nat → String) (runs : Nat → List Obs) (attempts idx : Nat)
    (wd : DataDir) (e : Error)
    (hm : materialize conf.tmpdir conf.staticdir envTmp (fresh idx) =
      Except.ok wd)
    (hv : validate_args conf.args = Except.error e) :
    launch_go conf envTmp fresh runs attempts idx =
      (LaunchOutcome.err e, 0) := by
  rw [launch_go]
  simp only [hm, hv]

/-- `launch_go` when the polling observations are exhausted. -/
theorem launch_go_noObs (conf : Conf) (envTmp : Option String)
    (fresh : Nat → String) (runs : Nat → List Obs) (attempts idx : Nat)
    (wd : DataDir)
    (hm : materialize conf.tmpdir conf.staticdir envTmp (fresh idx) =
      Except.ok wd)
    (hv : validate_args conf.args = Except.ok conf.args)
    (hn : (pollTrace (runs idx)).2 = PollOutcome.noObs) :
    launch_go conf envTmp fresh runs attempts idx =
      (LaunchOutcome.noObs, 1) := by
  rw [launch_go]
  simp only [hm, hv, hn]

/-- `launch_go` when the attempt becomes ready: one spawn, the handle owns
the work directory materialized for this attempt. -/
theorem launch_go_ready (conf : Conf) (envTmp : Option String)
    (fresh : Nat → String) (runs : Nat → List Obs) (attempts idx : Nat)
    (wd : DataDir)
    (hm : materialize conf.tmpdir conf.staticdir envTmp (fresh idx) =
      Except.ok wd)
    (hv : validate_args conf.args = Except.ok conf.args)
    (hr : (pollTrace (runs idx)).2 = PollOutcome.ready) :
    launch_go conf envTmp fresh runs attempts idx =
      (LaunchOutcome.ok { work_dir := wd }, 1) := by
  rw [launch_go]
  simp only [hm, hv, hr]

/-- `launch_go` on an early exit with exhausted budget: terminal failure
carrying the observed status. -/
theorem launch_go_early_zero (conf : Conf) (envTmp : Option String)
    (fresh : Nat → String) (runs : Nat → List Obs) (idx : Nat)
    (wd : DataDir) (s : ExitStatus)
    (hm : materialize conf.tmpdir conf.staticdir envTmp (fresh idx) =
      Except.ok wd)
    (hv : validate_args conf.args = Except.ok conf.args)
    (he : (pollTrace (runs idx)).2 = PollOutcome.earlyExit s) :
    launch_go conf envTmp fresh runs 0 idx =
      (LaunchOutcome.err (Error.EarlyExit s), 1) := by
  rw [launch_go]
  simp only [hm, hv, he]

/-- `launch_go` on an early exit with budget remaining: retry with the
decremented budget on a fresh attempt index. -/
theorem launch_go_early_succ (conf : Conf) (envTmp : Option String)
    (fresh : Nat → String) (runs : Nat → List Obs) (a idx : Nat)
    (wd : DataDir) (s : ExitStatus)
    (hm : materialize conf.tmpdir conf.staticdir envTmp (fresh idx) =
      Except.ok wd)
    (hv : validate_args conf.args = Except.ok conf.args)
    (he : (pollTrace (runs idx)).2 = PollOutcome.earlyExit s) :
    launch_go conf envTmp fresh runs (a + 1) idx =
      ((launch_go conf envTmp fresh runs a (idx + 1)).1,
       (launch_go conf envTmp fresh runs a (idx + 1)).2 + 1) := by
  rw [launch_go]
  simp only [hm, hv, he]

/-- A run of `k` consecutive early exits followed by a ready attempt: the
launch succeeds with the work directory of attempt `idx + k` after exactly
`k + 1` spawns, provided `k ≤ attempts`. -/
theorem launch_go_retry_run (conf : Conf) (envTmp : Option String)
    (fresh : Nat → String) (runs : Nat → List Obs) (wd : Nat → DataDir)
    (st : Nat → ExitStatus)
    (hv : validate_args conf.args = Except.ok conf.args)
    (hm : ∀ j, materialize conf.tmpdir conf.staticdir envTmp (fresh j) =
      Except.ok (wd j)) :
    ∀ (k attempts idx : Nat), k ≤ attempts →
      (∀ j, j < k →
        (pollTrace (runs (idx + j))).2 = PollOutcome.earlyExit (st (idx + j))) →
      (pollTrace (runs (idx + k))).2 = PollOutcome.ready →
      launch_go conf envTmp fresh runs attempts idx =
        (LaunchOutcome.ok { work_dir := wd (idx + k) }, k + 1) := by
  intro k
  induction k with
  | zero =>
    intro attempts idx _ _ hr
    have hr' : (pollTrace (runs idx)).2 = PollOutcome.ready := by
      simpa using hr
    simpa using
      launch_go_ready conf envTmp fresh runs attempts idx (wd idx)
        (hm idx) hv hr'
  | succ k ih =>
    intro attempts idx hk hex hr
    cases attempts with
    | zero => omega
    | succ a =>
      have he0 : (pollTrace (runs idx)).2 = PollOutcome.earlyExit (st idx) := by
        simpa using hex 0 (Nat.succ_pos k)
      rw [launch_go_early_succ conf envTmp fresh runs a idx (wd idx) (st idx)
        (hm idx) hv he0]
      have hidx : idx + (k + 1) = idx + 1 + k := by omega
      have hrec := ih a (idx + 1) (by omega)
        (fun j hj => by
          have hj1 := hex (j + 1) (by omega)
          have : idx + (j + 1) = idx + 1 + j := by omega
          rw [this] at hj1
          exact hj1)
        (by rw [hidx] at hr; exact hr)
      rw [hrec, hidx]

/-- Spawn-count bound and exhaustion characterization for `launch_go`: at
most `attempts + 1` spawns ever happen, and a terminal `EarlyExit s` means
all `attempts + 1` spawns happened and the last attempt (index
`idx + attempts`) was observed exiting with status `s`. -/
theorem launch_go_spawn_bound (conf : Conf) (envTmp : Option String)
    (fresh : Nat → String) (runs : Nat → List Obs) :
    ∀ (attempts idx : Nat),
      (launch_go conf envTmp fresh runs attempts idx).2 ≤ attempts + 1 ∧
      (∀ s, (launch_go conf envTmp fresh runs attempts idx).1 =
          LaunchOutcome.err (Error.EarlyExit s) →
        (launch_go conf envTmp fresh runs attempts idx).2 = attempts + 1 ∧
        (pollTrace (runs (idx + attempts))).2 = PollOutcome.earlyExit s) := by
  intro attempts
  induction attempts with
  | zero =>
    intro idx
    cases hmm : materialize conf.tmpdir conf.staticdir envTmp (fresh idx) with
    | error e =>
      rw [launch_go_materialize_err conf envTmp fresh runs 0 idx e hmm]
      refine ⟨by omega, fun s hs => ?_⟩
      rw [materialize_error _ _ _ _ _ hmm] at hs
      simp at hs
    | ok wd =>
      cases hvv : validate_args conf.args with
      | error e =>
        rw [launch_go_validate_err conf envTmp fresh runs 0 idx wd e hmm hvv]
        refine ⟨by omega, fun s hs => ?_⟩
        rw [validate_args_error _ _ hvv] at hs
        simp at hs
      | ok v =>
        rw [validate_args_ok _ _ hvv] at hvv
        cases hp : (pollTrace (runs idx)).2 with
        | ready =>
          rw [launch_go_ready conf envTmp fresh runs 0 idx wd hmm hvv hp]
          exact ⟨by omega, fun s hs => by simp at hs⟩
        | noObs =>
          rw [launch_go_noObs conf envTmp fresh runs 0 idx wd hmm hvv hp]
          exact ⟨by omega, fun s hs => by simp at hs⟩
        | earlyExit s0 =>
          rw [launch_go_early_zero conf envTmp fresh runs idx wd s0 hmm hvv hp]
          refine ⟨by omega, fun s hs => ?_⟩
          simp only [LaunchOutcome.err.injEq, Error.EarlyExit.injEq] at hs
          subst hs
          exact ⟨rfl, by simpa using hp⟩
  | succ a ih =>
    intro idx
    cases hmm : materialize conf.tmpdir conf.staticdir envTmp (fresh idx) with
    | error e =>
      rw [launch_go_materialize_err conf envTmp fresh runs (a + 1) idx e hmm]
      refine ⟨by omega, fun s hs => ?_⟩
      rw [materialize_error _ _ _ _ _ hmm] at hs
      simp at hs
    | ok wd =>
      cases hvv : validate_args conf.args with
      | error e =>
        rw [launch_go_validate_err conf envTmp fresh runs (a + 1) idx wd e hmm hvv]
        refine ⟨by omega, fun s hs => ?_⟩
        rw [validate_args_error _ _ hvv] at hs
        simp at hs
      | ok v =>
        rw [validate_args_ok _ _ hvv] at hvv
        cases hp : (pollTrace (runs idx)).2 with
        | ready =>
          rw [launch_go_ready conf envTmp fresh runs (a + 1) idx wd hmm hvv hp]
          exact ⟨by omega, fun s hs => by simp at hs⟩
        | noObs =>
          rw [launch_go_noObs conf envTmp fresh runs (a + 1) idx wd hmm hvv hp]
          exact ⟨by omega, fun s hs => by simp at hs⟩
        | earlyExit s0 =>
          rw [launch_go_early_succ conf envTmp fresh runs a idx wd s0 hmm hvv hp]
          obtain ⟨ihb, ihe⟩ := ih (idx + 1)
          refine ⟨by simpa using Nat.add_le_add_right ihb 1, fun s hs => ?_⟩
          obtain ⟨h1, h2⟩ := ihe s hs
          refine ⟨congrArg (fun n => n + 1) h1, ?_⟩
          have : idx + (a + 1) = idx + 1 + a := by omega
          rw [this]
          exact h2

/-- A launch that returns a handle had a ready polling run, i.e. a
successful `getinfo` probe, during some attempt. -/
theorem launch_go_ok_ready (conf : Conf) (envTmp : Option String)
    (fresh : Nat → String) (runs : Nat → List Obs) :
    ∀ (attempts idx : Nat) (node : LightningD),
      (launch_go conf envTmp fresh runs attempts idx).1 =
        LaunchOutcome.ok node →
      ∃ j, (pollTrace (runs j)).2 = PollOutcome.ready ∧
        Event.probe true ∈ (pollTrace (runs j)).1 := by
  intro attempts
  induction attempts with
  | zero =>
    intro idx node hok
    cases hmm : materialize conf.tmpdir conf.staticdir envTmp (fresh idx) with
    | error e =>
      rw [launch_go_materialize_err conf envTmp fresh runs 0 idx e hmm] at hok
      simp at hok
    | ok wd =>
      cases hvv : validate_args conf.args with
      | error e =>
        rw [launch_go_validate_err conf envTmp fresh runs 0 idx wd e hmm hvv]
          at hok
        simp at hok
      | ok v =>
        rw [validate_args_ok _ _ hvv] at hvv
        cases hp : (pollTrace (runs idx)).2 with
        | ready => exact ⟨idx, hp, pollTrace_ready_probe _ hp⟩
        | noObs =>
          rw [launch_go_noObs conf envTmp fresh runs 0 idx wd hmm hvv hp]
            at hok
          simp at hok
        | earlyExit s0 =>
          rw [launch_go_early_zero conf envTmp fresh runs idx wd s0 hmm hvv hp]
            at hok
          simp at hok
  | succ a ih =>
    intro idx node hok
    cases hmm : materialize conf.tmpdir conf.staticdir envTmp (fresh idx) with
    | error e =>
      rw [launch_go_materialize_err conf envTmp fresh runs (a + 1) idx e hmm]
        at hok
      simp at hok
    | ok wd =>
      cases hvv : validate_args conf.args with
      | error e =>
        rw [launch_go_validate_err conf envTmp fresh runs (a + 1) idx wd e hmm
          hvv] at hok
        simp at hok
      | ok v =>
        rw [validate_args_ok _ _ hvv] at hvv
        cases hp : (pollTrace (runs idx)).2 with
        | ready => exact ⟨idx, hp, pollTrace_ready_probe _ hp⟩
        | noObs =>
          rw [launch_go_noObs conf envTmp fresh runs (a + 1) idx wd hmm hvv hp]
            at hok
          simp at hok
        | earlyExit s0 =>
          rw [launch_go_early_succ conf envTmp fresh runs a idx wd s0 hmm hvv
            hp] at hok
          exact ih (idx + 1) node hok

/-- `validate_args` as a whole: the error exactly when some argument starts
with a deny-listed prefix, the unchanged input otherwise. -/
theorem validate_args_eq (args : List String) :
    validate_args args =
      (if args.any (fun a => INVALID_ARGS.any (fun x => strStartsWith a x)) then
        Except.error Error.RpcUserAndPasswordUsed
      else Except.ok args) := by
  unfold validate_args
  rw [validate_args_check_eq]
  cases hc : args.any (fun a => INVALID_ARGS.any (fun x => strStartsWith a x)) <;>
    simp [hc]

/-! ## Claim theorems -/

/-- C1: the claim says work-directory materialization fails with
`ConflictingDirectories` only when both explicit roots are `Some`, and that
the environment default (`TEMPDIR_ROOT`) is consulted only when neither is.
The code instead folds the environment value into `tmpdir` whenever
`conf.tmpdir` is `None`: with only `staticdir` set and `TEMPDIR_ROOT`
present in the environment, materialization fails with `BothDirsSpecified`
— contradicting both the claim and the crate's own doc comment on `Conf`
(`src/lib.rs:141-144`), which promises that `tmpdir = None`,
`staticdir = Some(path)` creates the persistent directory and ties
`TEMPDIR_ROOT` to the neither-set case only.  The same call with no
environment value succeeds, isolating the divergence. -/
theorem claim_C1_materialize_env_default :
    materialize none (some "/tmp/mynode") (some "/ramdisk") "t0" =
      Except.error Error.BothDirsSpecified ∧
    materialize none (some "/tmp/mynode") none "t0" =
      Except.ok (DataDir.Persistent "/tmp/mynode") ∧
    materialize (some "/ram") (some "/tmp/mynode") none "t0" =
      Except.error Error.BothDirsSpecified := by
  decide

/-- C2 counterexample: the claim says the loop probes first and sleeps only
after a failed probe.  On a run whose very first probe succeeds, the code's
trace nevertheless contains a sleep (the loop sleeps before every probe),
so the claimed ordering predicate is false of the code's trace. -/
theorem claim_C2_counterexample :
    (pollTrace [Obs.alive true]).2 = PollOutcome.ready ∧
    sleepsOnlyAfterFailedProbe none (pollTrace [Obs.alive true]).1 = false := by
  decide

/-- C2 amended: in every iteration in which the process has not exited, the
supervisor sleeps the fixed 100-millisecond delay first and then attempts
the readiness probe (every probe event is immediately preceded by a sleep);
on probe success it returns immediately, the successful probe being the
last action of the loop. -/
theorem claim_C2_sleep_then_probe (obs : List Obs) :
    probesFollowSleep none (pollTrace obs).1 = true ∧
    ((pollTrace obs).2 = PollOutcome.ready →
      (pollTrace obs).1.getLast? = some (Event.probe true)) := by
  induction obs with
  | nil => exact ⟨rfl, fun h => PollOutcome.noConfusion h⟩
  | cons o rest ih =>
    cases o with
    | exited s => exact ⟨rfl, fun h => PollOutcome.noConfusion h⟩
    | alive ok =>
      cases ok with
      | true =>
        refine ⟨?_, fun _ => rfl⟩
        show probesFollowSleep none
          [Event.checkExit, Event.sleep100ms, Event.probe true] = true
        decide
      | false =>
        obtain ⟨ih1, ih2⟩ := ih
        constructor
        · show probesFollowSleep none
            (Event.checkExit :: Event.sleep100ms :: Event.probe false ::
              (pollTrace rest).1) = true
          simp only [probesFollowSleep]
          rw [probesFollowSleep_shift (some (Event.probe false)) none _
            (pollTrace_shape rest)]
          simpa using ih1
        · intro h
          have h' : (pollTrace rest).2 = PollOutcome.ready := h
          have hl := ih2 h'
          show (Event.checkExit :: Event.sleep100ms :: Event.probe false ::
            (pollTrace rest).1).getLast? = some (Event.probe true)
          cases ht : (pollTrace rest).1 with
          | nil => rw [ht] at hl; exact Option.noConfusion hl
          | cons x t =>
            rw [ht] at hl
            rw [List.getLast?_cons_cons, List.getLast?_cons_cons,
              List.getLast?_cons_cons]
            exact hl

/-- Witness for the amended C2 theorem at a concrete two-iteration run. -/
theorem claim_C2_sleep_then_probe_witness :
    probesFollowSleep none
      (pollTrace [Obs.alive false, Obs.alive true]).1 = true ∧
    (pollTrace [Obs.alive false, Obs.alive true]).1.getLast? =
      some (Event.probe true) :=
  ⟨(claim_C2_sleep_then_probe [Obs.alive false, Obs.alive true]).1,
   (claim_C2_sleep_then_probe [Obs.alive false, Obs.alive true]).2 (by decide)⟩

/-- C6: for every argument sequence, `validate_args` fails with the
invalid-argument error (`RpcUserAndPasswordUsed`) exactly when some token
begins with a deny-listed prefix, and returns exactly the input sequence
unchanged otherwise (it is a pure function of its input). -/
theorem claim_C6_validate_args_spec (args : List String) :
    (validate_args args = Except.error Error.RpcUserAndPasswordUsed ↔
      ∃ arg ∈ args, ∃ x ∈ INVALID_ARGS, strStartsWith arg x = true) ∧
    (validate_args args = Except.ok args ↔
      ∀ arg ∈ args, ∀ x ∈ INVALID_ARGS, strStartsWith arg x = false) := by
  have hbig :
      args.any (fun a => INVALID_ARGS.any (fun x => strStartsWith a x)) = true ↔
      ∃ arg ∈ args, ∃ x ∈ INVALID_ARGS, strStartsWith arg x = true := by
    simp [List.any_eq_true]
  have hneg :
      args.any (fun a => INVALID_ARGS.any (fun x => strStartsWith a x)) = false ↔
      ∀ arg ∈ args, ∀ x ∈ INVALID_ARGS, strStartsWith arg x = false := by
    rw [Bool.eq_false_iff, Ne, hbig]
    push_neg
    simp [Bool.not_eq_true]
  rw [validate_args_eq]
  by_cases hc :
      args.any (fun a => INVALID_ARGS.any (fun x => strStartsWith a x)) = true
  · rw [if_pos hc]
    constructor
    · exact iff_of_true rfl (hbig.mp hc)
    · refine iff_of_false (fun h => Except.noConfusion h) (fun hall => ?_)
      obtain ⟨a, ha, x, hx, hsw⟩ := hbig.mp hc
      have hf := hall a ha x hx
      rw [hf] at hsw
      exact Bool.noConfusion hsw
  · have hc' :
        args.any (fun a => INVALID_ARGS.any (fun x => strStartsWith a x)) =
          false := by
      simpa using hc
    rw [if_neg hc]
    constructor
    · refine iff_of_false (fun h => Except.noConfusion h) (fun hex => ?_)
      obtain ⟨a, ha, x, hx, hsw⟩ := hex
      have hf := hneg.mp hc' a ha x hx
      rw [hf] at hsw
      exact Bool.noConfusion hsw
    · exact iff_of_true rfl (hneg.mp hc')

/-- Witness for C6: a deny-listed token triggers the error, a clean
sequence is returned unchanged. -/
theorem claim_C6_validate_args_spec_witness :
    validate_args ["--regtest", "-rpcuser=joe"] =
      Except.error Error.RpcUserAndPasswordUsed ∧
    validate_args ["--regtest"] = Except.ok ["--regtest"] :=
  ⟨(claim_C6_validate_args_spec ["--regtest", "-rpcuser=joe"]).1.mpr
      ⟨"-rpcuser=joe", by decide, "-rpcuser", by decide, by decide⟩,
   (claim_C6_validate_args_spec ["--regtest"]).2.mpr (by decide)⟩

/-- C8: on disposal without an explicit stop, a persistent work directory
gets a best-effort graceful stop first (whatever the stop result, it is
discarded) and a temporary one skips it; in all cases the forceful kill is
sent afterward, unconditionally last. -/
theorem claim_C8_drop_policy :
    (∀ (p : String) (r : Except Error ExitStatus),
        drop_actions (DataDir.Persistent p) r =
          [ShutdownAction.gracefulStop, ShutdownAction.kill]) ∧
    (∀ (t : String) (r : Except Error ExitStatus),
        drop_actions (DataDir.Temporary t) r = [ShutdownAction.kill]) ∧
    (∀ (wd : DataDir) (r : Except Error ExitStatus),
        (drop_actions wd r).getLast? = some ShutdownAction.kill) := by
  refine ⟨fun p r => rfl, fun t r => rfl, fun wd r => ?_⟩
  cases wd <;> rfl

/-- C9: launching never mutates the caller's configuration: in the
state-passing embedding of `with_conf` (which takes `conf` by shared
reference and decrements `attempts` only on an internal clone), the
configuration observable by the caller after the call is exactly the one
passed in, for every input and every recursion depth. -/
theorem claim_C9_conf_unchanged (conf : Conf) (envTmp : Option String)
    (fresh : Nat → String) (runs : Nat → List Obs) (idx : Nat) :
    (with_conf_st conf envTmp fresh runs idx).2 = conf := by
  unfold with_conf_st
  repeat' split
  all_goals rfl

/-- C3: for a retry budget `attempts > 0`, a launch whose process exits
early on exactly the first `k ≤ attempts` attempts and whose readiness probe
then succeeds on attempt `k` returns a successful handle after exactly
`k + 1` spawns — consuming exactly `k` units of the budget — and the handle
owns the work directory materialized for attempt `k` (each retry re-runs
materialization; the earlier attempts' directories are abandoned). -/
theorem claim_C3_retry_consumes_budget (conf : Conf) (envTmp : Option String)
    (fresh : Nat → String) (runs : Nat → List Obs) (wd : Nat → DataDir)
    (st : Nat → ExitStatus) (k : Nat)
    (hpos : 0 < conf.attempts)
    (hk : k ≤ conf.attempts)
    (hv : validate_args conf.args = Except.ok conf.args)
    (hm : ∀ j, materialize conf.tmpdir conf.staticdir envTmp (fresh j) =
      Except.ok (wd j))
    (hexit : ∀ j, j < k →
      (pollTrace (runs j)).2 = PollOutcome.earlyExit (st j))
    (hready : (pollTrace (runs k)).2 = PollOutcome.ready) :
    with_conf conf envTmp fresh runs =
      (LaunchOutcome.ok { work_dir := wd k }, k + 1) := by
  unfold with_conf
  have hmain := launch_go_retry_run conf envTmp fresh runs wd st hv hm k
    conf.attempts 0 hk
    (fun j hj => by simpa using hexit j hj)
    (by simpa using hready)
  simpa using hmain

/-- Witness for C3: budget 3, two early exits then a ready probe — the
launch returns the third attempt's directory after three spawns. -/
theorem claim_C3_retry_consumes_budget_witness :
    with_conf { Conf.default with attempts := 3 } none (fun _ => "x")
        (fun i => if i < 2 then [Obs.exited 7] else [Obs.alive true]) =
      (LaunchOutcome.ok { work_dir := DataDir.Temporary "/tmp/x" }, 3) := by
  have hmain := claim_C3_retry_consumes_budget
    { Conf.default with attempts := 3 } none (fun _ => "x")
    (fun i => if i < 2 then [Obs.exited 7] else [Obs.alive true])
    (fun _ => DataDir.Temporary "/tmp/x") (fun _ => 7) 2
    (by decide) (by decide) (by decide) (fun j => rfl)
    (by decide) (by decide)
  simpa using hmain

/-- C4: with `attempts = 0`, an early process exit is immediately terminal:
the launch fails with `EarlyExit` carrying the raw observed status, after a
single spawn (no retry, no second work directory). -/
theorem claim_C4_attempts_zero_early_exit (conf : Conf)
    (envTmp : Option String) (fresh : Nat → String) (runs : Nat → List Obs)
    (wd : DataDir) (s : ExitStatus)
    (h0 : conf.attempts = 0)
    (hm : materialize conf.tmpdir conf.staticdir envTmp (fresh 0) =
      Except.ok wd)
    (hv : validate_args conf.args = Except.ok conf.args)
    (he : (pollTrace (runs 0)).2 = PollOutcome.earlyExit s) :
    with_conf conf envTmp fresh runs =
      (LaunchOutcome.err (Error.EarlyExit s), 1) := by
  unfold with_conf
  rw [h0]
  exact launch_go_early_zero conf envTmp fresh runs 0 wd s hm hv he

/-- Witness for C4 at a concrete early-exiting run with raw status 42. -/
theorem claim_C4_attempts_zero_early_exit_witness :
    with_conf { Conf.default with attempts := 0 } none (fun _ => "x")
        (fun _ => [Obs.exited 42]) =
      (LaunchOutcome.err (Error.EarlyExit 42), 1) :=
  claim_C4_attempts_zero_early_exit { Conf.default with attempts := 0 } none
    (fun _ => "x") (fun _ => [Obs.exited 42])
    (DataDir.Temporary "/tmp/x") 42 (by decide) rfl (by decide) (by decide)

/-- C5: the early-exit retry terminates — a launch performs at most
`attempts + 1` spawns in total — and a terminal `EarlyExit s` failure means
the budget was fully consumed (`attempts + 1` spawns happened) and `s` is
the status observed on the last attempt (index `attempts`). -/
theorem claim_C5_retry_bounded (conf : Conf) (envTmp : Option String)
    (fresh : Nat → String) (runs : Nat → List Obs) :
    (with_conf conf envTmp fresh runs).2 ≤ conf.attempts + 1 ∧
    (∀ s, (with_conf conf envTmp fresh runs).1 =
        LaunchOutcome.err (Error.EarlyExit s) →
      (with_conf conf envTmp fresh runs).2 = conf.attempts + 1 ∧
      (pollTrace (runs conf.attempts)).2 = PollOutcome.earlyExit s) := by
  unfold with_conf
  have hmain := launch_go_spawn_bound conf envTmp fresh runs conf.attempts 0
  simpa using hmain

/-- Witness for C5: budget 2 and a process that always exits early — three
spawns, terminal failure with the last observed status. -/
theorem claim_C5_retry_bounded_witness :
    (with_conf { Conf.default with attempts := 2 } none (fun _ => "x")
        (fun _ => [Obs.exited 9])).2 ≤ 3 ∧
    (with_conf { Conf.default with attempts := 2 } none (fun _ => "x")
        (fun _ => [Obs.exited 9])).2 = 3 ∧
    (pollTrace ((fun _ => [Obs.exited 9]) 2)).2 = PollOutcome.earlyExit 9 := by
  have hmain := claim_C5_retry_bounded { Conf.default with attempts := 2 }
    none (fun _ => "x") (fun _ => [Obs.exited 9])
  exact ⟨hmain.1, hmain.2 9 (by decide)⟩

/-- C7: a successfully constructed handle implies some polling run ended
ready, which in turn contains a successful `getinfo` probe event — the
control client completed at least one successful status query before the
constructor returned. -/
theorem claim_C7_status_query_before_return (conf : Conf)
    (envTmp : Option String) (fresh : Nat → String) (runs : Nat → List Obs)
    (node : LightningD)
    (h : (with_conf conf envTmp fresh runs).1 = LaunchOutcome.ok node) :
    ∃ j, (pollTrace (runs j)).2 = PollOutcome.ready ∧
      Event.probe true ∈ (pollTrace (runs j)).1 :=
  launch_go_ok_ready conf envTmp fresh runs conf.attempts 0 node h

/-- Witness for C7 at a concrete immediately-ready run. -/
theorem claim_C7_status_query_before_return_witness :
    ∃ _j : Nat, (pollTrace [Obs.alive true]).2 = PollOutcome.ready ∧
      Event.probe true ∈ (pollTrace [Obs.alive true]).1 :=
  claim_C7_status_query_before_return Conf.default none (fun _ => "x")
    (fun _ => [Obs.alive true])
    { work_dir := DataDir.Temporary "/tmp/x" } (by decide)

/-- C10: the polling loop cannot panic.  The source never configures the
child's stderr, so the spawned child's stderr handle is absent and the
`assert!(process.stderr.is_none())` holds; and when the work-directory path
is valid UTF-8, the control-socket path (work dir joined with the network
name and `"lightning-rpc"`) is valid UTF-8, so `Path::to_str().unwrap()`
succeeds. -/
theorem claim_C10_poll_no_panic (view_stdout : Bool) (w net : List Nat)
    (hw : utf8Valid w = true) (hnet : utf8Valid net = true) :
    (spawn (lightningd_command view_stdout)).stderr_captured = false ∧
    path_to_str (sock_bytes w net) = some (sock_bytes w net) := by
  constructor
  · rfl
  · have hsep : utf8Valid sepByte = true := by decide
    have hlrb : utf8Valid lightning_rpc_bytes = true := by decide
    have hall : utf8Valid (sock_bytes w net) = true := by
      unfold sock_bytes
      exact utf8Valid_append _ _
        (utf8Valid_append _ _
          (utf8Valid_append _ _ (utf8Valid_append _ _ hw hsep) hnet) hsep)
        hlrb
    unfold path_to_str
    rw [hall]
    rfl

/-- Witness for C10 with work dir `/tmp` and network `regtest`. -/
theorem claim_C10_poll_no_panic_witness :
    (spawn (lightningd_command false)).stderr_captured = false ∧
    path_to_str
        (sock_bytes [47, 116, 109, 112]
          [114, 101, 103, 116, 101, 115, 116]) =
      some (sock_bytes [47, 116, 109, 112]
        [114, 101, 103, 116, 101, 115, 116]) :=
  claim_C10_poll_no_panic false [47, 116, 109, 112]
    [114, 101, 103, 116, 101, 115, 116] (by decide) (by decide)

end Lnd
